import Mathlib

/-!
Verification of the Aureolin routing layer: a shallow embedding of the
route registration and parameter-binding pipeline (`src/handlers/route.ts`
and the `AureolinApplication` class), with theorems checking the
natural-language specification against the code.

JavaScript runtime values are embedded as the inductive type `Value`
(numbers as `Int`; the claims under study involve no fractional or NaN
arithmetic), and the mutable koa context as an explicit record threaded
through dispatch.
-/

namespace Aureolin

/-- A JavaScript runtime value, as far as the routing layer inspects one:
`undefined`, `null`, booleans, numbers, strings, plain objects (ordered
field lists), preact elements (carrying the markup they render to), and a
marker for the request/response context object itself. -/
inductive Value where
  | undefined : Value
  | vnull : Value
  | bool (b : Bool) : Value
  | num (n : Int) : Value
  | str (s : String) : Value
  | obj (fields : List (String × Value)) : Value
  | element (markup : String) : Value
  | ctxObj : Value

/-- JavaScript truthiness: `undefined`, `null`, `false`, `0` and `""` are
falsy; every object (including preact elements and the context) is truthy. -/
def truthy : Value → Bool
  | .undefined => false
  | .vnull => false
  | .bool b => b
  | .num n => n != 0
  | .str s => s != ""
  | .obj _ => true
  | .element _ => true
  | .ctxObj => true

/-- Property access `v.k` on an embedded value: field lookup on plain
objects, `undefined` on every other value (primitives box to wrappers that
lack the fields the dispatcher reads; `null`/`undefined` access is guarded
separately where the code would throw). -/
def getField : Value → String → Value
  | .obj fields, k =>
    match fields.find? (fun kv => kv.1 = k) with
    | some kv => kv.2
    | none => .undefined
  | _, _ => .undefined

/-- The preact `isValidElement` predicate, an external collaborator: true
exactly on renderable elements. -/
def isValidElement : Value → Bool
  | .element _ => true
  | _ => false

/-- The preact-render-to-string `render` collaborator: an element renders
to the markup it carries. -/
def render : Value → String
  | .element markup => markup
  | _ => ""

/-- The koa request/response context, reduced to the facets the routing
layer reads and writes: mutable response `status` and `body`, the parsed
request body, and named path parameters, query parameters and headers. -/
structure Ctx where
  status : Value
  body : Value
  reqBody : Value
  pathParams : List (String × Value)
  query : List (String × Value)
  headers : List (String × Value)

/-- Named lookup in a request facet (params/query/headers): the named
value, or `undefined` when the name is absent or no name was given. -/
def facetGet (fields : List (String × Value)) : Option String → Value
  | some k =>
    match fields.find? (fun kv => kv.1 = k) with
    | some kv => kv.2
    | none => .undefined
  | none => .undefined

/-- The source kind of a parameter binding (the `type` field of a stored
parameter): which request facet maps to the bound argument. -/
inductive ParamType where
  | body : ParamType
  | param : ParamType
  | query : ParamType
  | header : ParamType
  | ctx : ParamType
  | custom : ParamType
deriving DecidableEq, Repr

/-- One stored parameter binding: the (controller, propertyKey) pair it
belongs to, the positional argument index, the source kind, and the
optional meta string (param/header/query name). -/
structure Param where
  controller : String
  propertyKey : String
  index : Nat
  type : ParamType
  meta : Option String
deriving DecidableEq, Repr

/-- A user-supplied Custom extractor: receives the context and the meta
string (spec §4.6). -/
def CustomExtractor : Type := Ctx → Option String → Value

/-- Modelled from the spec: the parameter store (`src/store/param.ts`) is
not under src/; per §4.3 `getParams` returns the bindings registered for
the given (controller, propertyKey) pair — an empty sequence when none
exist — in registration order (the caller in `route.ts` sorts by index
itself). -/
def getParams (store : List Param) (controller propertyKey : String) : List Param :=
  store.filter (fun p => p.controller = controller ∧ p.propertyKey = propertyKey)

/-- Modelled from the spec: `getParam` (`src/handlers/param.ts`) is not
under src/; per §4.6 it extracts one value from the request: Body → parsed
request body, RouteParam → named path segment via meta, Query → named
query value, Header → named header value, Context → the full context
object, Custom → the user extractor applied to the context and meta. -/
def getParam (custom : CustomExtractor) (ctx : Ctx) : ParamType → Option String → Value
  | .body, _ => ctx.reqBody
  | .param, meta => facetGet ctx.pathParams meta
  | .query, meta => facetGet ctx.query meta
  | .header, meta => facetGet ctx.headers meta
  | .ctx, _ => .ctxObj
  | .custom, meta => custom ctx meta

/-- The comparator of `route.ts` line 18: `(a, b) => a.index - b.index`,
i.e. ascending argument index. -/
def paramLE (a b : Param) : Prop := a.index ≤ b.index

instance : DecidableRel paramLE := fun a b => Nat.decLe a.index b.index

instance : IsTotal Param paramLE := ⟨fun a b => Nat.le_total a.index b.index⟩

instance : IsTrans Param paramLE := ⟨fun _ _ _ hab hbc => Nat.le_trans hab hbc⟩

/-- The sort of `route.ts` line 18: `params.sort((a, b) => a.index - b.index)`.
JavaScript `Array.prototype.sort` is stable; a stable insertion sort by
ascending index models it. -/
def sortParams (params : List Param) : List Param :=
  params.insertionSort paramLE

/-- The `args` array of `route.ts` line 21: one extracted value per sorted
binding, in sorted order. -/
def routeArgs (custom : CustomExtractor) (sortedParams : List Param) (ctx : Ctx) : List Value :=
  sortedParams.map (fun p => getParam custom ctx p.type p.meta)

/-- JavaScript strict equality `=== 500` against an embedded value: true
exactly on the number 500 (`route.ts` line 33). -/
def strictEq500 : Value → Bool
  | .num n => n == 500
  | _ => false

/-- What a handler invocation does: return a value, or throw one; either
way the handler may first have mutated the context (its post-invocation
context is carried alongside). -/
inductive HandlerResult where
  | ret (v : Value) (ctx : Ctx) : HandlerResult
  | thr (e : Value) (ctx : Ctx) : HandlerResult

/-- A bound handler: receives the positional argument list (`cb(...args)`)
and the current context, and returns or throws. -/
def Handler : Type := List Value → Ctx → HandlerResult

/-- The body of the middleware returned by `handleRoute` (`route.ts` lines
19–36), for already-sorted bindings: extract the arguments, invoke the
handler; on a truthy return value render elements and assign the body; on
a throw run the catch block. `Except.error` means the middleware itself
threw: the destructuring `const { data, status = 500 } = E` throws a
TypeError when the thrown value is `null` or `undefined`. -/
def runRoute (custom : CustomExtractor) (sortedParams : List Param)
    (cb : Handler) (ctx : Ctx) : Except String Ctx :=
  let args := routeArgs custom sortedParams ctx
  match cb args ctx with
  | .ret res ctx1 =>
    if truthy res then
      let res1 := if isValidElement res then Value.str (render res) else res
      .ok { ctx1 with body := res1 }
    else
      .ok ctx1
  | .thr err ctx1 =>
    match err with
    | .undefined => .error "TypeError: cannot destructure property of undefined"
    | .vnull => .error "TypeError: cannot destructure property of null"
    | _ =>
      let data := getField err "data"
      let status :=
        match getField err "status" with
        | .undefined => Value.num 500
        | v => v
      let message :=
        if truthy (getField err "message") then getField err "message"
        else if strictEq500 status then Value.str "Internal Server Error"
        else Value.str ""
      let body :=
        if truthy data then data
        else Value.obj [("status", status), ("message", message)]
      .ok { ctx1 with status := status, body := body }

/-- `handleRoute` (`route.ts` lines 9–37): fetch the bindings for the
(controller, propertyKey) pair from the parameter store, sort them by
ascending index, and return the per-request dispatch middleware. -/
def handleRoute (paramStore : List Param) (custom : CustomExtractor)
    (cb : Handler) (controller propertyKey : String) : Ctx → Except String Ctx :=
  let params := getParams paramStore controller propertyKey
  let sortedParams := sortParams params
  fun ctx => runRoute custom sortedParams cb ctx

/-- The argument list a dispatch for (controller, propertyKey) hands to the
handler: the store's bindings for the pair, sorted by index, each mapped
through extraction. -/
def dispatchArgs (paramStore : List Param) (custom : CustomExtractor)
    (controller propertyKey : String) (ctx : Ctx) : List Value :=
  routeArgs custom (sortParams (getParams paramStore controller propertyKey)) ctx

/-- The seven HTTP verbs of the `Methods` union type. -/
inductive Methods where
  | GET : Methods
  | POST : Methods
  | PUT : Methods
  | DELETE : Methods
  | PATCH : Methods
  | HEAD : Methods
  | OPTIONS : Methods
deriving DecidableEq, Repr

/-- The verb's name, as interpolated into error messages. -/
def methodName : Methods → String
  | .GET => "GET"
  | .POST => "POST"
  | .PUT => "PUT"
  | .DELETE => "DELETE"
  | .PATCH => "PATCH"
  | .HEAD => "HEAD"
  | .OPTIONS => "OPTIONS"

/-- The verb list of the constructor loop that populates the
method-to-router map (`AureolinApplication` constructor). -/
def methodsList : List Methods :=
  [.GET, .POST, .PUT, .DELETE, .PATCH, .HEAD, .OPTIONS]

/-- `this.methods.get(endpoint.method)`: lookup in the map populated by the
constructor loop over `methodsList`. -/
def methodsGet (m : Methods) : Option Methods :=
  methodsList.find? (fun x => x = m)

/-- A controller registration: the key it was registered under, its base
path (the `target` instance is irrelevant to the claims under study). -/
structure ControllerReg where
  key : String
  path : String
deriving DecidableEq, Repr

/-- An endpoint registration: controller key, verb, sub-path and the name
of the handler method. -/
structure EndpointReg where
  controller : String
  method : Methods
  path : String
  propertyKey : String
deriving DecidableEq, Repr

/-- The endpoint store's contents: registered controllers and endpoint
registrations, each in registration order. -/
structure EndpointStore where
  controllers : List ControllerReg
  endpoints : List EndpointReg
deriving DecidableEq, Repr

/-- Modelled from the spec: the endpoint store (`src/store/endpoints.ts`)
is not under src/; per §4.2 `getController` looks a controller registration
up by key, returning not-found when the key was never registered. -/
def getControllerReg (s : EndpointStore) (key : String) : Option ControllerReg :=
  s.controllers.find? (fun c => c.key = key)

/-- The effective-path computation of `configureRouters` (lines 208–210):
`let path = controller.path.concat(endpoint.path)`, then if the last
character is the path separator, drop it (`path.substring(0, last)`).
An empty concatenation has no last character and passes through. -/
def effectivePath (basePath subPath : String) : String :=
  let path := basePath ++ subPath
  if path.data.getLast? = some '/' then String.mk path.data.dropLast else path

/-- The path rule as the spec words it (§4.5 step 2), for comparison with
the code's `effectivePath`: strip exactly one trailing separator only when
the concatenation ends with a separator AND has length > 1. -/
def effectivePathSpec (basePath subPath : String) : String :=
  let path := basePath ++ subPath
  if path.data.getLast? = some '/' ∧ path.length > 1 then String.mk path.data.dropLast
  else path

/-- One registration handed to the underlying router: verb, computed path,
and the (controller, propertyKey) pair whose bound handler serves it. -/
structure RouteReg where
  method : Methods
  path : String
  controller : String
  propertyKey : String
deriving DecidableEq, Repr

/-- The loop body of `configureRouters` (lines 205–223) over a list of
endpoint registrations: resolve the controller (throwing a descriptive
`Error` naming the key when absent), compute the effective path, resolve
the verb's router function (throwing when absent), and register the
wrapped handler; `Except.error` models the thrown error aborting the
loop. -/
def configureRoutersAux (store : EndpointStore) : List EndpointReg → Except String (List RouteReg)
  | [] => .ok []
  | e :: rest =>
    match getControllerReg store e.controller with
    | none => .error ("Controller " ++ e.controller ++ " not found")
    | some c =>
      let path := effectivePath c.path e.path
      match methodsGet e.method with
      | none => .error ("Method " ++ methodName e.method ++ " not found")
      | some _ =>
        match configureRoutersAux store rest with
        | .error msg => .error msg
        | .ok rs =>
          .ok ({ method := e.method, path := path,
                 controller := e.controller, propertyKey := e.propertyKey } :: rs)

/-- `configureRouters`: process every endpoint of the store, in store
order. -/
def configureRouters (store : EndpointStore) : Except String (List RouteReg) :=
  configureRoutersAux store store.endpoints

/-- One entry of the koa application's middleware chain, identified by what
installed it: the global request-logging middleware, the body-parsing
middleware (with its enabled content types), a registered middleware class
(wrapped, by name), or the router's route-matching and method-not-allowed
middleware installed by `configureRouters`. -/
inductive MWEntry where
  | requestLogging : MWEntry
  | bodyParsing (enableTypes : List String) : MWEntry
  | registered (name : String) : MWEntry
  | routerRoutes : MWEntry
  | routerAllowedMethods : MWEntry
deriving DecidableEq, Repr

/-- `server.use(m)`: koa appends the middleware to the chain. -/
def use (server : List MWEntry) (m : MWEntry) : List MWEntry :=
  server ++ [m]

/-- `configureMiddlewares` (lines 167–196): install the request-logging
middleware, then the body parser enabled for json/form/text, then one
wrapper per middleware class in the middleware store, in store order. -/
def configureMiddlewares (middlewareStore : List String) (server : List MWEntry) : List MWEntry :=
  let s1 := use server .requestLogging
  let s2 := use s1 (.bodyParsing ["json", "form", "text"])
  middlewareStore.foldl (fun s name => use s (.registered name)) s2

/-- Modelled from the spec: koa's middleware composition is an external
collaborator (§5, §6) — the chain runs sequentially in `use` order, each
entry wrapping the call to the next. `execOrder` is the order in which the
chain's entries begin execution for one request when every entry calls its
next continuation. -/
def execOrder : List MWEntry → List MWEntry
  | [] => []
  | m :: rest => m :: execOrder rest

/-- The boot sequence run by the `AureolinApplication` constructor after
loading: configure the middleware chain, then the routers (appending the
router's own middleware), then declare the app ready; a throw in
`configureRouters` aborts the sequence, so the app never becomes ready and
`start` (listening) is never reached with configured routes. -/
def bootApp (store : EndpointStore) (middlewareStore : List String) :
    Except String (List MWEntry × List RouteReg) :=
  let chain := configureMiddlewares middlewareStore []
  match configureRouters store with
  | .error msg => .error msg
  | .ok routes =>
    let chain2 := use (use chain .routerRoutes) .routerAllowedMethods
    .ok (chain2, routes)

/-! Concrete fixtures used by witnesses and counterexamples. -/

/-- A concrete request context: a pending 404 status, no body yet, a parsed
request body, one path parameter, two query parameters and one header. -/
def ctx0 : Ctx :=
  { status := .num 404
    body := .undefined
    reqBody := .obj [("name", .str "aureolin")]
    pathParams := [("id", .str "7")]
    query := [("a", .num 1), ("b", .num 2)]
    headers := [("x-test", .str "yes")] }

/-- A trivial Custom extractor fixture. -/
def custom0 : CustomExtractor := fun _ _ => .undefined

/-- The fixture context after a handler has set the body manually. -/
def ctxOrig : Ctx := { ctx0 with body := .str "original" }

/-! Theorems settling the claims. -/

/-- C9: when the handler returns no value (`undefined`), dispatch leaves
the response body untouched — the final context is exactly the context as
the handler left it, body included. -/
theorem dispatch_no_return_leaves_body (paramStore : List Param)
    (custom : CustomExtractor) (cb : Handler) (controller propertyKey : String)
    (ctx ctx1 : Ctx)
    (h : cb (dispatchArgs paramStore custom controller propertyKey ctx) ctx =
      .ret .undefined ctx1) :
    handleRoute paramStore custom cb controller propertyKey ctx = .ok ctx1 := by
  simp only [dispatchArgs] at h
  simp [handleRoute, runRoute, h, truthy]

/-- Witness for C9 at a concrete store, handler and context. -/
theorem dispatch_no_return_leaves_body_witness :
    handleRoute [] custom0 (fun _ c => .ret .undefined c) "C" "m" ctx0 = .ok ctx0 :=
  dispatch_no_return_leaves_body [] custom0 (fun _ c => .ret .undefined c) "C" "m" ctx0 ctx0 rfl

/-- C10: when the handler returns a defined but falsy value (0, false, the
empty string, or null), dispatch does not assign it: the response body is
left unchanged, exactly as when the handler returns no value. -/
theorem dispatch_defined_falsy_leaves_body (paramStore : List Param)
    (custom : CustomExtractor) (cb : Handler) (controller propertyKey : String)
    (ctx ctx1 : Ctx) (v : Value) (hv : truthy v = false)
    (h : cb (dispatchArgs paramStore custom controller propertyKey ctx) ctx =
      .ret v ctx1) :
    handleRoute paramStore custom cb controller propertyKey ctx = .ok ctx1 := by
  simp only [dispatchArgs] at h
  simp [handleRoute, runRoute, h, hv]

/-- Witness for C10: a handler returning `0` leaves the body the handler
set manually. -/
theorem dispatch_defined_falsy_leaves_body_witness :
    truthy (.num 0) = false ∧
      handleRoute [] custom0 (fun _ _ => .ret (.num 0) ctxOrig) "C" "m" ctx0 = .ok ctxOrig :=
  ⟨by decide,
    dispatch_defined_falsy_leaves_body [] custom0 (fun _ _ => .ret (.num 0) ctxOrig)
      "C" "m" ctx0 ctxOrig (.num 0) (by decide) rfl⟩

/-- C6: a handler throwing a plain error with no `status` (and no `data`)
field yields response status 500 and body `{status: 500, message}` where
the message is "Internal Server Error" when the thrown message is empty
and the actual message otherwise. -/
theorem dispatch_plain_error_500 (paramStore : List Param)
    (custom : CustomExtractor) (cb : Handler) (controller propertyKey : String)
    (ctx ctx1 : Ctx) (m : String)
    (h : cb (dispatchArgs paramStore custom controller propertyKey ctx) ctx =
      .thr (.obj [("message", .str m)]) ctx1) :
    handleRoute paramStore custom cb controller propertyKey ctx =
      .ok { ctx1 with
            status := .num 500
            body := .obj [("status", .num 500),
                          ("message", .str (if m = "" then "Internal Server Error" else m))] } := by
  simp only [dispatchArgs] at h
  by_cases hm : m = ""
  · subst hm
    simp [handleRoute, runRoute, h, getField, truthy, strictEq500]
  · simp [handleRoute, runRoute, h, getField, truthy, strictEq500, hm]

/-- Witness for C6 at a concrete thrown error with message "boom". -/
theorem dispatch_plain_error_500_witness :
    handleRoute [] custom0 (fun _ _ => .thr (.obj [("message", .str "boom")]) ctx0) "C" "m" ctx0 =
      .ok { ctx0 with
            status := .num 500
            body := .obj [("status", .num 500), ("message", .str "boom")] } := by
  have h := dispatch_plain_error_500 [] custom0
    (fun _ _ => .thr (.obj [("message", .str "boom")]) ctx0) "C" "m" ctx0 ctx0 "boom" rfl
  simpa using h

/-- C4 (code bug): the error-normalization branch is not total — when a
handler throws `null` or rejects with `undefined`, the destructuring
`const { data, status = 500 } = E` itself throws a TypeError, so dispatch
terminates without setting a response status or body, contradicting the
spec's requirement that normalization never throw. -/
theorem dispatch_throw_null_normalization_throws :
    handleRoute [] custom0 (fun _ _ => .thr .vnull ctx0) "C" "m" ctx0 =
      .error "TypeError: cannot destructure property of null"
    ∧ handleRoute [] custom0 (fun _ _ => .thr .undefined ctx0) "C" "m" ctx0 =
      .error "TypeError: cannot destructure property of undefined" :=
  ⟨rfl, rfl⟩

/-- C5 (counterexample): a handler returning the plain value `0` — not a
renderable element — does not get `0` assigned as the response body; the
body keeps the value it already had, refuting "body === V for all such V". -/
theorem dispatch_falsy_zero_counterexample :
    handleRoute [] custom0 (fun _ _ => .ret (.num 0) ctxOrig) "C" "m" ctx0 = .ok ctxOrig
    ∧ isValidElement (.num 0) = false
    ∧ ctxOrig.body = .str "original"
    ∧ Value.str "original" ≠ Value.num 0 :=
  ⟨rfl, rfl, rfl, fun h => Value.noConfusion h⟩

/-- C5 (amended): a handler returning a truthy plain value V that is not a
renderable element results in response body exactly V; falsy return values
are never assigned. -/
theorem dispatch_truthy_return_sets_body (paramStore : List Param)
    (custom : CustomExtractor) (cb : Handler) (controller propertyKey : String)
    (ctx ctx1 : Ctx) (v : Value) (hv : truthy v = true) (he : isValidElement v = false)
    (h : cb (dispatchArgs paramStore custom controller propertyKey ctx) ctx =
      .ret v ctx1) :
    handleRoute paramStore custom cb controller propertyKey ctx =
      .ok { ctx1 with body := v } := by
  simp only [dispatchArgs] at h
  simp [handleRoute, runRoute, h, hv, he]

/-- Witness for amended C5: a handler returning the string "pong" sets the
body to exactly "pong". -/
theorem dispatch_truthy_return_sets_body_witness :
    handleRoute [] custom0 (fun _ _ => .ret (.str "pong") ctx0) "C" "m" ctx0 =
      .ok { ctx0 with body := .str "pong" } :=
  dispatch_truthy_return_sets_body [] custom0 (fun _ _ => .ret (.str "pong") ctx0)
    "C" "m" ctx0 ctx0 (.str "pong") (by decide) (by decide) rfl

/-- C3 (counterexample): a handler throwing the empty object (no `status`,
no `message`, no `data`) yields status 500 and body
`{status: 500, message: "Internal Server Error"}` — not the empty-string
message the claim predicts for a messageless 500. -/
theorem dispatch_thrown_object_counterexample :
    handleRoute [] custom0 (fun _ _ => .thr (.obj []) ctx0) "C" "m" ctx0 =
      .ok { ctx0 with
            status := .num 500
            body := .obj [("status", .num 500), ("message", .str "Internal Server Error")] }
    ∧ Value.str "Internal Server Error" ≠ Value.str "" := by
  refine ⟨rfl, fun h => ?_⟩
  injection h with h2
  exact absurd h2 (by decide)

/-- C3 (amended): for a handler throwing an object, dispatch sets the
response status to the object's `status` field when that field is not
`undefined` and to 500 otherwise, and sets the body to the object's `data`
field when that is truthy, else to `{status, message}` where the message is
the object's `message` field when truthy, "Internal Server Error" when the
status is strictly 500, and the empty string otherwise. -/
theorem dispatch_thrown_object_normalization (paramStore : List Param)
    (custom : CustomExtractor) (cb : Handler) (controller propertyKey : String)
    (ctx ctx1 : Ctx) (fields : List (String × Value))
    (h : cb (dispatchArgs paramStore custom controller propertyKey ctx) ctx =
      .thr (.obj fields) ctx1) :
    handleRoute paramStore custom cb controller propertyKey ctx =
      .ok { ctx1 with
            status :=
              (match getField (.obj fields) "status" with
               | .undefined => Value.num 500
               | v => v)
            body :=
              (if truthy (getField (.obj fields) "data") then getField (.obj fields) "data"
               else Value.obj
                 [("status",
                   (match getField (.obj fields) "status" with
                    | .undefined => Value.num 500
                    | v => v)),
                  ("message",
                   (if truthy (getField (.obj fields) "message") then
                      getField (.obj fields) "message"
                    else if strictEq500
                        (match getField (.obj fields) "status" with
                         | .undefined => Value.num 500
                         | v => v) then
                      Value.str "Internal Server Error"
                    else Value.str ""))]) } := by
  simp only [dispatchArgs] at h
  simp [handleRoute, runRoute, h]

/-- Witness for amended C3 at a thrown `{status: 404, message: "not found"}`. -/
theorem dispatch_thrown_object_normalization_witness :
    handleRoute [] custom0
      (fun _ _ => .thr (.obj [("status", .num 404), ("message", .str "not found")]) ctx0)
      "C" "m" ctx0 =
      .ok { ctx0 with
            status := .num 404
            body := .obj [("status", .num 404), ("message", .str "not found")] } := by
  have h := dispatch_thrown_object_normalization [] custom0
    (fun _ _ => .thr (.obj [("status", .num 404), ("message", .str "not found")]) ctx0)
    "C" "m" ctx0 ctx0 [("status", .num 404), ("message", .str "not found")] rfl
  simpa [getField, truthy, strictEq500] using h

/-- C2 (counterexample): base path "/" with empty sub-path yields the empty
string, not "/" — the code strips the trailing separator with no length
check, while the spec's own rule (`effectivePathSpec`) would keep "/". -/
theorem effectivePath_root_counterexample :
    effectivePath "/" "" = "" ∧ effectivePathSpec "/" "" = "/" ∧ ("" : String) ≠ "/" := by
  refine ⟨rfl, rfl, ?_⟩
  decide

/-- C2 (amended): the effective path equals basePath + subPath with exactly
one trailing separator stripped whenever the concatenation ends with a
separator, with no length condition — so the code agrees with the spec's
length-guarded rule on every concatenation except "/", which the code
collapses to the empty string. -/
theorem effectivePath_matches_spec_off_root :
    (∀ basePath subPath : String, basePath ++ subPath ≠ "/" →
      effectivePath basePath subPath = effectivePathSpec basePath subPath)
    ∧ (∀ basePath subPath : String, basePath ++ subPath = "/" →
      effectivePath basePath subPath = "" ∧ effectivePathSpec basePath subPath = "/") := by
  constructor
  · intro b s hne
    show (if (b ++ s).data.getLast? = some '/' then String.mk (b ++ s).data.dropLast
          else b ++ s) =
        (if (b ++ s).data.getLast? = some '/' ∧ (b ++ s).length > 1 then
          String.mk (b ++ s).data.dropLast
         else b ++ s)
    by_cases h : (b ++ s).data.getLast? = some '/'
    · have hlen : (b ++ s).length > 1 := by
        have hdata : (b ++ s).length = (b ++ s).data.length := rfl
        rcases Nat.lt_or_ge 1 (b ++ s).length with hgt | hle
        · exact hgt
        · exfalso
          have hne0 : (b ++ s).data ≠ [] := by
            intro h0
            rw [h0] at h
            exact Option.noConfusion h
          have h1 : (b ++ s).data.length = 1 := by
            have hpos : 0 < (b ++ s).data.length := List.length_pos.mpr hne0
            omega
          obtain ⟨c, hc⟩ := List.length_eq_one.mp h1
          rw [hc] at h
          have hcc : c = '/' := by
            simpa using h
          apply hne
          apply String.ext
          rw [hc, hcc]
      rw [if_pos h,
        if_pos (show (b ++ s).data.getLast? = some '/' ∧ (b ++ s).length > 1 from ⟨h, hlen⟩)]
    · rw [if_neg h, if_neg (fun hc => h hc.1)]
  · intro b s hroot
    have hdata : (b ++ s).data = ['/'] := by
      rw [hroot]
    constructor
    · show (if (b ++ s).data.getLast? = some '/' then String.mk (b ++ s).data.dropLast
            else b ++ s) = ""
      rw [hdata]
      rfl
    · show (if (b ++ s).data.getLast? = some '/' ∧ (b ++ s).length > 1 then
              String.mk (b ++ s).data.dropLast
            else b ++ s) = "/"
      rw [hroot]
      rfl

/-- Witness for amended C2: a non-root concatenation where the code and the
spec rule agree (one separator stripped), and the root concatenation where
they split. -/
theorem effectivePath_matches_spec_off_root_witness :
    effectivePath "/api" "/users/" = effectivePathSpec "/api" "/users/"
    ∧ effectivePath "/" "" = ""
    ∧ effectivePathSpec "/" "" = "/" :=
  ⟨effectivePath_matches_spec_off_root.1 "/api" "/users/" (by decide),
    (effectivePath_matches_spec_off_root.2 "/" "" rfl).1,
    (effectivePath_matches_spec_off_root.2 "/" "" rfl).2⟩

/-- Every verb is present in the constructor-populated method map. -/
theorem methodsGet_eq (m : Methods) : methodsGet m = some m := by
  cases m <;> rfl

/-- Helper for C7: processing a list of endpoints in which some endpoint's
controller key is unregistered throws the descriptive error of the first
such endpoint. -/
theorem configureRoutersAux_missing (store : EndpointStore) :
    ∀ es : List EndpointReg, (∃ e ∈ es, getControllerReg store e.controller = none) →
      ∃ k, getControllerReg store k = none ∧ (∃ e ∈ es, e.controller = k) ∧
        configureRoutersAux store es = .error ("Controller " ++ k ++ " not found") := by
  intro es
  induction es with
  | nil =>
    rintro ⟨e, he, _⟩
    exact absurd he (List.not_mem_nil e)
  | cons a rest ih =>
    rintro ⟨e, he, hnone⟩
    by_cases ha : getControllerReg store a.controller = none
    · refine ⟨a.controller, ha, ⟨a, List.mem_cons_self a rest, rfl⟩, ?_⟩
      simp [configureRoutersAux, ha]
    · have he2 : e ∈ rest := by
        rcases List.mem_cons.mp he with rfl | h2
        · exact absurd hnone ha
        · exact h2
      obtain ⟨k, hk, ⟨e2, he3, hek⟩, herr⟩ := ih ⟨e, he2, hnone⟩
      refine ⟨k, hk, ⟨e2, List.mem_cons_of_mem a he3, hek⟩, ?_⟩
      obtain ⟨c, hc⟩ := Option.ne_none_iff_exists'.mp ha
      simp [configureRoutersAux, hc, methodsGet_eq, herr]

/-- C7: an endpoint registered for a controller key that was never
registered makes Route Assembly throw an error naming the missing key, and
the boot sequence aborts with that same error before the server can start
listening. -/
theorem configureRouters_missing_controller_fails (store : EndpointStore)
    (middlewareStore : List String)
    (h : ∃ e ∈ store.endpoints, getControllerReg store e.controller = none) :
    ∃ k, getControllerReg store k = none ∧ (∃ e ∈ store.endpoints, e.controller = k) ∧
      configureRouters store = .error ("Controller " ++ k ++ " not found") ∧
      bootApp store middlewareStore = .error ("Controller " ++ k ++ " not found") := by
  obtain ⟨k, hk, hmem, herr⟩ := configureRoutersAux_missing store store.endpoints h
  refine ⟨k, hk, hmem, herr, ?_⟩
  simp [bootApp, configureRouters] at herr ⊢
  simp [herr]

/-- A store fixture for C7: one endpoint referencing "UserController",
which was never registered as a controller. -/
def store7 : EndpointStore :=
  { controllers := []
    endpoints := [{ controller := "UserController", method := .GET, path := "/",
                    propertyKey := "index" }] }

/-- Witness for C7: assembling `store7` fails naming "UserController". -/
theorem configureRouters_missing_controller_fails_witness :
    ∃ k, getControllerReg store7 k = none ∧ (∃ e ∈ store7.endpoints, e.controller = k) ∧
      configureRouters store7 = .error ("Controller " ++ k ++ " not found") ∧
      bootApp store7 [] = .error ("Controller " ++ k ++ " not found") :=
  configureRouters_missing_controller_fails store7 []
    ⟨{ controller := "UserController", method := .GET, path := "/", propertyKey := "index" },
      List.mem_cons_self _ _, rfl⟩

/-- C8: the middleware chain configured by `configureMiddlewares` is, in
`use` order, the global request-logging middleware first, then the
body-parsing middleware, then each registered middleware in registration
order; per koa's sequential composition contract the entries begin
execution in exactly that order, each wrapping the call to the next. -/
theorem middleware_chain_order (middlewareStore : List String) :
    configureMiddlewares middlewareStore [] =
      MWEntry.requestLogging :: MWEntry.bodyParsing ["json", "form", "text"] ::
        middlewareStore.map MWEntry.registered
    ∧ execOrder (configureMiddlewares middlewareStore []) =
      MWEntry.requestLogging :: MWEntry.bodyParsing ["json", "form", "text"] ::
        middlewareStore.map MWEntry.registered := by
  have hfold : ∀ (l : List String) (s : List MWEntry),
      l.foldl (fun acc name => use acc (.registered name)) s = s ++ l.map MWEntry.registered := by
    intro l
    induction l with
    | nil => intro s; simp
    | cons n rest ih =>
      intro s
      rw [List.foldl_cons, ih (use s (.registered n))]
      simp [use]
  have hexec : ∀ l : List MWEntry, execOrder l = l := by
    intro l
    induction l with
    | nil => rfl
    | cons m rest ih => simp [execOrder, ih]
  have hchain : configureMiddlewares middlewareStore [] =
      MWEntry.requestLogging :: MWEntry.bodyParsing ["json", "form", "text"] ::
        middlewareStore.map MWEntry.registered := by
    show middlewareStore.foldl (fun s name => use s (.registered name))
        (use (use [] .requestLogging) (.bodyParsing ["json", "form", "text"])) = _
    rw [hfold]
    rfl
  exact ⟨hchain, by rw [hexec, hchain]⟩

/-- Helper for C1: if the indices of a binding list are exactly
0..(length-1), then in the sorted-and-mapped argument list each binding's
value sits at its own declared index. -/
theorem getD_sortParams_map (l : List Param) (f : Param → Value)
    (hperm : (l.map Param.index).Perm (List.range l.length)) (p : Param) (hp : p ∈ l) :
    ((sortParams l).map f).getD p.index Value.undefined = f p := by
  have hsorted : (l.insertionSort paramLE).Sorted paramLE := List.sorted_insertionSort paramLE l
  have hpermsort : (l.insertionSort paramLE).Perm l := List.perm_insertionSort paramLE l
  have hmapsorted : ((l.insertionSort paramLE).map Param.index).Sorted (· ≤ ·) :=
    List.Pairwise.map Param.index (fun _ _ hab => hab) hsorted
  have hmapperm : ((l.insertionSort paramLE).map Param.index).Perm (List.range l.length) :=
    (hpermsort.map Param.index).trans hperm
  have hrange : (l.insertionSort paramLE).map Param.index = List.range l.length :=
    List.eq_of_perm_of_sorted hmapperm hmapsorted (List.sorted_le_range _)
  have hpmem : p ∈ l.insertionSort paramLE := hpermsort.mem_iff.mpr hp
  obtain ⟨⟨k, hk⟩, hget⟩ := List.mem_iff_get.mp hpmem
  have hkmap : k < ((l.insertionSort paramLE).map Param.index).length := by simpa using hk
  have h1 : ((l.insertionSort paramLE).map Param.index).get ⟨k, hkmap⟩ = p.index := by
    rw [List.get_map]
    exact congrArg Param.index hget
  have hkrange : k < (List.range l.length).length := by
    rw [← hrange]
    exact hkmap
  have h2 : (List.range l.length).get ⟨k, hkrange⟩ = k := by
    simp
  have hidx : p.index = k := by
    rw [← h1]
    have hcast := List.get_of_eq hrange ⟨k, hkmap⟩
    rw [hcast]
    exact h2
  have hkf : k < ((l.insertionSort paramLE).map f).length := by simpa using hk
  show ((l.insertionSort paramLE).map f).getD p.index Value.undefined = f p
  rw [hidx, List.getD_eq_getElem _ _ hkf, List.getElem_map]
  have hget2 : (List.insertionSort paramLE l)[k] = p := hget
  exact congrArg f hget2

/-- C1 (counterexample): with bindings declared at argument indices 0 and 2
only, the extracted values are passed compacted — the value declared for
index 2 arrives in the handler's slot 1, and slot 2 receives `undefined` —
so an extracted value does not land at its declared argumentIndex position. -/
theorem dispatch_args_gap_counterexample :
    dispatchArgs
        [{ controller := "C", propertyKey := "m", index := 0, type := .query, meta := some "a" },
         { controller := "C", propertyKey := "m", index := 2, type := .query, meta := some "b" }]
        custom0 "C" "m" ctx0 = [.num 1, .num 2]
    ∧ getParam custom0 ctx0 .query (some "b") = .num 2
    ∧ (dispatchArgs
        [{ controller := "C", propertyKey := "m", index := 0, type := .query, meta := some "a" },
         { controller := "C", propertyKey := "m", index := 2, type := .query, meta := some "b" }]
        custom0 "C" "m" ctx0).getD 2 Value.undefined = Value.undefined
    ∧ (dispatchArgs
        [{ controller := "C", propertyKey := "m", index := 0, type := .query, meta := some "a" },
         { controller := "C", propertyKey := "m", index := 2, type := .query, meta := some "b" }]
        custom0 "C" "m" ctx0).getD 1 Value.undefined = .num 2
    ∧ Value.num 2 ≠ Value.undefined :=
  ⟨rfl, rfl, rfl, rfl, fun h => Value.noConfusion h⟩

/-- C1 (amended): dispatch hands the handler the extracted values of the
registered bindings sorted by ascending argumentIndex, as consecutive
positional arguments from slot 0 — index gaps are not filled — and when
the declared indices are exactly 0..n-1 every extracted value does land at
its declared argumentIndex position. -/
theorem dispatch_args_sorted_compacted (paramStore : List Param)
    (custom : CustomExtractor) (controller propertyKey : String) (ctx : Ctx) :
    List.Sorted paramLE (sortParams (getParams paramStore controller propertyKey))
    ∧ (sortParams (getParams paramStore controller propertyKey)).Perm
        (getParams paramStore controller propertyKey)
    ∧ dispatchArgs paramStore custom controller propertyKey ctx =
        (sortParams (getParams paramStore controller propertyKey)).map
          (fun p => getParam custom ctx p.type p.meta)
    ∧ (((getParams paramStore controller propertyKey).map Param.index).Perm
          (List.range (getParams paramStore controller propertyKey).length) →
        ∀ p ∈ getParams paramStore controller propertyKey,
          (dispatchArgs paramStore custom controller propertyKey ctx).getD p.index Value.undefined
            = getParam custom ctx p.type p.meta) := by
  refine ⟨List.sorted_insertionSort paramLE _, List.perm_insertionSort paramLE _, rfl, ?_⟩
  intro hperm p hp
  exact getD_sortParams_map (getParams paramStore controller propertyKey)
    (fun p => getParam custom ctx p.type p.meta) hperm p hp

/-- Witness for amended C1: two bindings registered out of order with
contiguous indices 0 and 1; the binding declared at index 1 lands in
slot 1. -/
theorem dispatch_args_sorted_compacted_witness :
    (dispatchArgs
        [{ controller := "C", propertyKey := "m", index := 1, type := .query, meta := some "b" },
         { controller := "C", propertyKey := "m", index := 0, type := .query, meta := some "a" }]
        custom0 "C" "m" ctx0).getD 1 Value.undefined
      = getParam custom0 ctx0 .query (some "b") :=
  (dispatch_args_sorted_compacted
      [{ controller := "C", propertyKey := "m", index := 1, type := .query, meta := some "b" },
       { controller := "C", propertyKey := "m", index := 0, type := .query, meta := some "a" }]
      custom0 "C" "m" ctx0).2.2.2 (by decide)
    { controller := "C", propertyKey := "m", index := 1, type := .query, meta := some "b" }
    (by decide)

end Aureolin
